import Mathlib

/-!
Shallow embedding of the Ego4D hand-pose curation pipeline
(`src/utils/ego4d_dataset.py`) and proofs about its specified behaviour.

Conventions of the embedding:
* A 2D/3D keypoint row of the numpy object arrays is `Option (ℚ × ℚ)` /
  `Option (ℚ × ℚ × ℚ)`: `none` models a row whose coordinates are the `None`
  sentinel (the code only ever tests `np.any(row == None)` and afterwards
  overwrites whole rows, so rows are all-`None` or all-numeric).
* Machine floats are modelled by `ℚ`; `numpy.astype(int64)` (truncation
  toward zero) is `trunc`.
* The occlusion mask is a total function `ℤ → ℤ → ℚ` indexed as `mask y x`,
  mirroring `aria_mask[y, x]`.
* Camera matrices are curried functions over `Fin` index types.
-/

abbrev Pt2 := Option (ℚ × ℚ)

abbrev Pt3 := Option (ℚ × ℚ × ℚ)

/-- Python `int(...)` and `numpy.astype(np.int64)`: truncation toward zero. -/
def trunc (q : ℚ) : ℤ := if 0 ≤ q then ⌊q⌋ else -⌊-q⌋

/-! ### Projector (`world_to_cam`, `cam_to_img`) -/

/-- One row of `world_to_cam`: a `None` row is zeroed before the matrix
multiply and restored to `None` right after, so it maps to `none`; a numeric
row is homogenised (append 1) and left-multiplied by the 3×4 extrinsic. -/
def world_to_cam_pt (extri : Fin 3 → Fin 4 → ℚ) (p : Pt3) : Pt3 :=
  match p with
  | none => none
  | some (x, y, z) =>
      some (extri 0 0 * x + extri 0 1 * y + extri 0 2 * z + extri 0 3,
            extri 1 0 * x + extri 1 1 * y + extri 1 2 * z + extri 1 3,
            extri 2 0 * x + extri 2 1 * y + extri 2 2 * z + extri 2 3)

/-- Source `world_to_cam(kpts, extri)`: row-wise matrix action. -/
def world_to_cam (kpts : List Pt3) (extri : Fin 3 → Fin 4 → ℚ) : List Pt3 :=
  kpts.map (world_to_cam_pt extri)

/-- One row of `cam_to_img`: a `None` row is set to `-1`, multiplied and then
restored to `None`, so it maps to `none`; a numeric row is multiplied by the
3×3 intrinsic and perspective-divided by the third coordinate. -/
def cam_to_img_pt (intri : Fin 3 → Fin 3 → ℚ) (p : Pt3) : Pt2 :=
  match p with
  | none => none
  | some (x, y, z) =>
      let u := intri 0 0 * x + intri 0 1 * y + intri 0 2 * z
      let v := intri 1 0 * x + intri 1 1 * y + intri 1 2 * z
      let w := intri 2 0 * x + intri 2 1 * y + intri 2 2 * z
      some (u / w, v / w)

/-- Source `cam_to_img(kpts, intri)`. -/
def cam_to_img (kpts : List Pt3) (intri : Fin 3 → Fin 3 → ℚ) : List Pt2 :=
  kpts.map (cam_to_img_pt intri)

/-! ### ViewRemapper (`aria_original_to_extracted`) -/

/-- One row of `aria_original_to_extracted`: rows that are not `None` get
`new_x = H - old_y - 1`, `new_y = old_x`; `None` rows are untouched. -/
def aria_original_to_extracted_pt (srcH : ℚ) (p : Pt2) : Pt2 :=
  match p with
  | none => none
  | some (x, y) => some (srcH - y - 1, x)

/-- Source `aria_original_to_extracted(kpts, img_shape)` with `H, _ = img_shape`. -/
def aria_original_to_extracted (kpts : List Pt2) (srcH : ℚ) : List Pt2 :=
  kpts.map (aria_original_to_extracted_pt srcH)

/-! ### AffineSampler point application (`affine_transform`) -/

/-- One row of `affine_transform`: a `None` row is zeroed, multiplied and
restored to `None`; a numeric row is homogenised (append 1) and
left-multiplied by the 3×3 transform.  As in the source, all three result
components are kept. -/
def affine_transform_pt (trans : Fin 3 → Fin 3 → ℚ) (p : Pt2) : Pt3 :=
  match p with
  | none => none
  | some (x, y) =>
      some (trans 0 0 * x + trans 0 1 * y + trans 0 2,
            trans 1 0 * x + trans 1 1 * y + trans 1 2,
            trans 2 0 * x + trans 2 1 * y + trans 2 2)

/-- Source `affine_transform(kpts, trans)` (3×3 `trans` case). -/
def affine_transform (kpts : List Pt2) (trans : Fin 3 → Fin 3 → ℚ) : List Pt3 :=
  kpts.map (affine_transform_pt trans)

/-- The source's extension of a 2×3 cv2 affine matrix with the row `[0,0,1]`
(`if trans.shape[0] == 2` branch of `affine_transform`). -/
def affine_extend (t : Fin 2 → Fin 3 → ℚ) : Fin 3 → Fin 3 → ℚ :=
  fun i j => if h : (i : ℕ) < 2 then t ⟨i, h⟩ j else if (j : ℕ) = 2 then 1 else 0

/-! ### KeypointValidator (`one_hand_kpts_valid_check`) -/

/-- Step 1 flag: `np.any(kpts == None, axis=1)` for one row. -/
def miss_anno_flag (p : Pt2) : Bool := p.isNone

/-- Assignment `new_kpts[miss_anno_flag] = 0`: the coordinate used by the
numeric checks, with missing rows zeroed. -/
def zero_missing (p : Pt2) : ℚ × ℚ := p.getD (0, 0)

/-- Step 2 flag: x outside `[0, W)` or y outside `[0, H)` (evaluated on the
missing-zeroed coordinate, as in the source). -/
def out_bound_flag (dimH dimW : ℚ) (q : ℚ × ℚ) : Bool :=
  (decide (q.1 < 0) || decide (dimW ≤ q.1)) || (decide (q.2 < 0) || decide (dimH ≤ q.2))

/-- The coordinate after both zeroing steps (`new_kpts[out_bound_flag] = 0`). -/
def zeroed_kpt (dimH dimW : ℚ) (p : Pt2) : ℚ × ℚ :=
  if out_bound_flag dimH dimW (zero_missing p) then (0, 0) else zero_missing p

/-- Step 3 flag: occlusion-mask lookup `aria_mask[int(y), int(x)] == 0` at the
coordinate zeroed by the two earlier checks. -/
def invis_flag (dimH dimW : ℚ) (mask : ℤ → ℤ → ℚ) (p : Pt2) : Bool :=
  decide (mask (trunc (zeroed_kpt dimH dimW p).2) (trunc (zeroed_kpt dimH dimW p).1) = 0)

/-- Step 4: `valid = ~(miss + out_bound + invis)`. -/
def valid_flag_kpt (dimH dimW : ℚ) (mask : ℤ → ℤ → ℚ) (p : Pt2) : Bool :=
  !(miss_anno_flag p || out_bound_flag dimH dimW (zero_missing p) || invis_flag dimH dimW mask p)

/-- Step 5: the cleaned output row — invalid rows are rewritten to `None`,
valid rows keep their (un-zeroed, original) coordinate. -/
def clean_kpt (dimH dimW : ℚ) (mask : ℤ → ℤ → ℚ) (p : Pt2) : Pt2 :=
  if valid_flag_kpt dimH dimW mask p then some (zeroed_kpt dimH dimW p) else none

/-- Source `one_hand_kpts_valid_check(kpts, aria_mask)`, returning
`(new_kpts, valid_flag)`; `dimH, dimW` are `self.undist_img_dim`. -/
def one_hand_kpts_valid_check (dimH dimW : ℚ) (mask : ℤ → ℤ → ℚ) (kpts : List Pt2) :
    List Pt2 × List Bool :=
  (kpts.map (clean_kpt dimH dimW mask), kpts.map (valid_flag_kpt dimH dimW mask))

/-! ### BBoxEstimator (`get_bbox_from_kpts`, `xyxy2cs`) -/

/-- Numpy `np.clip(v, lo, hi)`. -/
def clip (v lo hi : ℚ) : ℚ := min (max v lo) hi

/-- Source `get_bbox_from_kpts(kpts, img_shape, padding)`: min/max
box over the (numeric) keypoints, expanded by `padding` on each side and
clipped to `[0, W-1] × [0, H-1]`.  The source indexes a nonempty array; the
`[]` case returns a junk box that no theorem relies on. -/
def get_bbox_from_kpts (kpts : List (ℚ × ℚ)) (dimH dimW padding : ℚ) : ℚ × ℚ × ℚ × ℚ :=
  match kpts with
  | [] => (0, 0, 0, 0)
  | p :: rest =>
      let x1 := (rest.map Prod.fst).foldl min p.1
      let y1 := (rest.map Prod.snd).foldl min p.2
      let x2 := (rest.map Prod.fst).foldl max p.1
      let y2 := (rest.map Prod.snd).foldl max p.2
      (clip (x1 - padding) 0 (dimW - 1),
       clip (y1 - padding) 0 (dimH - 1),
       clip (x2 + padding) 0 (dimW - 1),
       clip (y2 + padding) 0 (dimH - 1))

/-- Source `xyxy2cs(x1, y1, x2, y2, img_shape, pixel_std)`:
center = box midpoint; width/height grown to the target aspect ratio
(`img_shape[1]/img_shape[0]`), divided by `pixel_std`, and (whenever
`center[0] != -1`) inflated by 1.25. -/
def xyxy2cs (x1 y1 x2 y2 dimH dimW pixel_std : ℚ) : (ℚ × ℚ) × (ℚ × ℚ) :=
  let aspect := dimW / dimH
  let cx := (x1 + x2) / 2
  let cy := (y1 + y2) / 2
  let w := x2 - x1
  let h := y2 - y1
  let wh : ℚ × ℚ :=
    if aspect * h < w then (w, w / aspect)
    else if w < aspect * h then (h * aspect, h)
    else (w, h)
  let scale : ℚ × ℚ :=
    if cx ≠ -1 then (wh.1 / pixel_std * (5 / 4), wh.2 / pixel_std * (5 / 4))
    else (wh.1 / pixel_std, wh.2 / pixel_std)
  ((cx, cy), scale)

/-! ### HeatmapGenerator (`generate_heatmap`) -/

/-- Value of one heatmap cell.  The source stores floats; since the only
values ever written are `0` (untouched cells) and samples of the unnormalised
Gaussian, a cell is represented symbolically: `gauss d2` stands for
`exp(-d2 / (2·sigma²))` — the Gaussian with peak `1.0` at squared grid
distance `d2 = 0`.  `exp` of anything is nonzero, so `zero` and `gauss d2`
never denote the same float, and `gauss` is injective in the denoted value. -/
inductive HCell where
  | zero : HCell
  | gauss (d2 : ℤ) : HCell
deriving DecidableEq

/-- Grid coordinate `mu_x = int(joints[j][0] / feat_stride[0] + 0.5)` with
`feat_stride = image_size / heatmap_size`. -/
def heat_mu (img : ℚ) (hm : ℤ) (c : ℚ) : ℤ := trunc (c / (img / (hm : ℚ)) + 1 / 2)

/-- The source's in-bounds test on the truncation window
(`ul[0] >= hmW or ul[1] >= hmH or br[0] < 0 or br[1] < 0`). -/
def gaussian_window_miss (hmW hmH ulX ulY brX brY : ℤ) : Bool :=
  (decide (hmW ≤ ulX) || decide (hmH ≤ ulY)) || (decide (brX < 0) || decide (brY < 0))

/-- The splat of the truncated Gaussian: cells of the intersection of the
window `[ulX, brX) × [ulY, brY)` with the grid `[0, hmW) × [0, hmH)` receive
`g[y - ulY][x - ulX]` where `g[j][i] = gauss ((i - tmp)² + (j - tmp)²)`;
all other cells stay `zero`. -/
def gaussian_splat (hmW hmH tmp ulX ulY brX brY : ℤ) : ℤ → ℤ → HCell :=
  fun y x =>
    if max 0 ulX ≤ x ∧ x < min brX hmW ∧ max 0 ulY ≤ y ∧ y < min brY hmH then
      HCell.gauss ((x - ulX - tmp) ^ 2 + (y - ulY - tmp) ^ 2)
    else HCell.zero

/-- Per-joint body of `generate_heatmap`: the weight starts as the visibility
flag; an invisible joint keeps a zero map; a visible joint whose window fails
the in-bounds test gets weight `0` and a zero map; otherwise the Gaussian is
splatted into the window/grid intersection and the weight stays `1`. -/
def generate_heatmap_joint (imgW imgH : ℚ) (hmW hmH sigma : ℤ) (p : ℚ × ℚ) :
    Bool → (ℤ → ℤ → HCell) × ℚ
  | false => (fun _ _ => HCell.zero, 0)
  | true =>
      let tmp := sigma * 3
      let muX := heat_mu imgW hmW p.1
      let muY := heat_mu imgH hmH p.2
      if gaussian_window_miss hmW hmH (muX - tmp) (muY - tmp) (muX + tmp + 1) (muY + tmp + 1)
      then (fun _ _ => HCell.zero, 0)
      else (gaussian_splat hmW hmH tmp (muX - tmp) (muY - tmp) (muX + tmp + 1) (muY + tmp + 1), 1)

/-- Source `generate_heatmap(joints, vis_flag)`, joint by joint. -/
def generate_heatmap (imgW imgH : ℚ) (hmW hmH sigma : ℤ)
    (joints : List (ℚ × ℚ)) (vis : List Bool) : List ((ℤ → ℤ → HCell) × ℚ) :=
  List.zipWith (generate_heatmap_joint imgW imgH hmW hmH sigma) joints vis

/-- Disjointness of the window `[ulX, brX) × [ulY, brY)` from the grid
`[0, hmW) × [0, hmH)` (used to state what "the window does not intersect the
heatmap grid at all" means). -/
def window_disjoint (hmW hmH ulX ulY brX brY : ℤ) : Bool :=
  decide (min brX hmW ≤ max ulX 0) || decide (min brY hmH ≤ max ulY 0)

/-! ### SampleCurator (per-hand body of `load_take_raw_data`) -/

/-- The fields of one emitted db record that the geometric pipeline computes
(path/name metadata is omitted). -/
structure HandRecord where
  joints_2d : List Pt2
  joints_3d : List Pt3
  valid_flag : List Bool
  bbox : ℚ × ℚ × ℚ × ℚ
  center : ℚ × ℚ
  scale : ℚ × ℚ

/-- The per-(frame, hand) body of `load_take_raw_data` (lines 250–287):
skip if the wrist world row is `None`; project to camera then to the original
image plane; remap to the extracted view (the source passes
`self.undist_img_dim`, so the rotation height is `dimH`); run the validity
check; `None`-out invalid camera rows; accept iff
`sum(valid_flag) >= threshold`, restoring the raw camera wrist row and
computing bbox/center/scale on acceptance. -/
def load_take_raw_data_one_hand (dimH dimW padding pixel_std : ℚ) (threshold : ℕ)
    (mask : ℤ → ℤ → ℚ) (extri : Fin 3 → Fin 4 → ℚ) (intri : Fin 3 → Fin 3 → ℚ) :
    List Pt3 → Option HandRecord
  | [] => none
  | none :: _ => none
  | some wv :: rest =>
      let cam := world_to_cam (some wv :: rest) extri
      let ext := aria_original_to_extracted (cam_to_img cam intri) dimH
      let cleaned := (one_hand_kpts_valid_check dimH dimW mask ext).1
      let flags := (one_hand_kpts_valid_check dimH dimW mask ext).2
      let cam3 := List.zipWith (fun p b => if b then p else none) cam flags
      if threshold ≤ flags.count true then
        let cam3w := cam3.set 0 (world_to_cam_pt extri (some wv))
        let validPts := (cleaned.zip flags).filterMap (fun pb => if pb.2 then pb.1 else none)
        let bb := get_bbox_from_kpts validPts dimH dimW padding
        let cs := xyxy2cs bb.1 bb.2.1 bb.2.2.1 bb.2.2.2 dimH dimW pixel_std
        some ⟨cleaned, cam3w, flags, bb, cs.1, cs.2⟩
      else none

/-- The validity flags the curator computes for one hand (the second output
of `one_hand_kpts_valid_check` applied to the fully projected keypoints). -/
def pipeline_flags (dimH dimW : ℚ) (mask : ℤ → ℤ → ℚ) (extri : Fin 3 → Fin 4 → ℚ)
    (intri : Fin 3 → Fin 3 → ℚ) (kptsWorld : List Pt3) : List Bool :=
  (one_hand_kpts_valid_check dimH dimW mask
    (aria_original_to_extracted (cam_to_img (world_to_cam kptsWorld extri) intri) dimH)).2

/-! ### Take-level gate of `load_raw_data` (lines 216–232) -/

/-- What happens to one take in the `load_raw_data` loop. -/
inductive TakeOutcome where
  | skipped_with_warning : TakeOutcome
  | dropped_silently : TakeOutcome
  | processed : TakeOutcome
deriving DecidableEq

/-- The take gate of `load_raw_data`: a missing annotation file, camera-pose
file or image directory prints a warning and skips the take; with all three
present, the take's frames are processed only under
`len(anno) > 0 and len(anno) <= len(cam_pose)` — otherwise the loop body
simply falls through with no output at all. -/
def load_raw_data_take_gate (annoExists camPoseExists imgDirExists : Bool)
    (nAnno nCamPose : ℕ) : TakeOutcome :=
  if !(annoExists && camPoseExists && imgDirExists) then .skipped_with_warning
  else if 0 < nAnno ∧ nAnno ≤ nCamPose then .processed
  else .dropped_silently

/-! ### Concrete instances used by scenario theorems -/

/-- Identity 3×4 extrinsic `[I | 0]`. -/
def idExtri : Fin 3 → Fin 4 → ℚ := fun i j => if (i : ℕ) = (j : ℕ) then 1 else 0

/-- Identity 3×3 intrinsic. -/
def idIntri : Fin 3 → Fin 3 → ℚ := fun i j => if (i : ℕ) = (j : ℕ) then 1 else 0

/-- Occlusion mask that marks every pixel visible. -/
def constMask1 : ℤ → ℤ → ℚ := fun _ _ => 1

/-- Occlusion mask that marks every pixel occluded. -/
def constMask0 : ℤ → ℤ → ℚ := fun _ _ => 0

/-- A 21-joint hand: wrist and joints 1–9 at world `(1,2,1)` (which projects
to extracted pixel `(509, 1)` of the 512×512 view), joints 10–20 missing. -/
def nineValidKpts : List Pt3 :=
  some (1, 2, 1) :: (List.replicate 9 (some (1, 2, 1)) ++ List.replicate 11 none)

/-- Mask occluding exactly the pixel column `x = 509` of the extracted view
(where world `(1,2,1)` lands), everything else visible. -/
def maskOccl509 : ℤ → ℤ → ℚ := fun _ x => if x = 509 then 0 else 1

/-- A 21-joint hand whose wrist (world `(1,2,1)`, extracted pixel
`(509, 1)`) is occluded under `maskOccl509` while joints 1–10 (world
`(2,3,1)`, extracted pixel `(508, 2)`) are visible; joints 11–20 missing. -/
def occlWristKpts : List Pt3 :=
  some (1, 2, 1) :: (List.replicate 10 (some (2, 3, 1)) ++ List.replicate 10 none)

/-! ### Theorems -/

/-- C9: with identity extrinsic and intrinsic, the world point `(0,0,5)` maps
to camera point `(0,0,5)`, to image point `(0,0)`, and (source height 1408)
to the extracted-view point `(1407, 0)`; that pixel is out of bounds for a
512×512 extracted image, so the validator flags it out-of-bounds and invalid
and erases its coordinate. -/
theorem end_to_end_scenario :
    world_to_cam [some (0, 0, 5)] idExtri = [some (0, 0, 5)] ∧
    cam_to_img [some (0, 0, 5)] idIntri = [some (0, 0)] ∧
    aria_original_to_extracted [some (0, 0)] 1408 = [some (1407, 0)] ∧
    out_bound_flag 512 512 (zero_missing (some (1407, 0))) = true ∧
    one_hand_kpts_valid_check 512 512 constMask1 [some (1407, 0)] = ([none], [false]) := by
  refine ⟨?_, ?_, ?_, ?_, ?_⟩ <;>
    norm_num [world_to_cam, world_to_cam_pt, idExtri, cam_to_img, cam_to_img_pt, idIntri,
      aria_original_to_extracted, aria_original_to_extracted_pt, one_hand_kpts_valid_check,
      clean_kpt, valid_flag_kpt, miss_anno_flag, zero_missing, out_bound_flag, invis_flag,
      zeroed_kpt, constMask1, trunc, decide_eq_true_eq] <;>
    decide

/-- C3: for `world_to_cam`, `cam_to_img`, `aria_original_to_extracted` and
`affine_transform`, an absent input row yields an absent output row at the
same index, and the output row at an index depends only on the input row at
that index (so present rows transform the same however the rest of the batch
looks). -/
theorem absence_propagation (extri : Fin 3 → Fin 4 → ℚ) (intri : Fin 3 → Fin 3 → ℚ)
    (trans : Fin 3 → Fin 3 → ℚ) (srcH : ℚ)
    (k3 l3 : List Pt3) (k2 l2 : List Pt2) (i : ℕ) :
    ((k3[i]? = some none → (world_to_cam k3 extri)[i]? = some none) ∧
     (k3[i]? = l3[i]? → (world_to_cam k3 extri)[i]? = (world_to_cam l3 extri)[i]?)) ∧
    ((k3[i]? = some none → (cam_to_img k3 intri)[i]? = some none) ∧
     (k3[i]? = l3[i]? → (cam_to_img k3 intri)[i]? = (cam_to_img l3 intri)[i]?)) ∧
    ((k2[i]? = some none → (aria_original_to_extracted k2 srcH)[i]? = some none) ∧
     (k2[i]? = l2[i]? →
       (aria_original_to_extracted k2 srcH)[i]? = (aria_original_to_extracted l2 srcH)[i]?)) ∧
    ((k2[i]? = some none → (affine_transform k2 trans)[i]? = some none) ∧
     (k2[i]? = l2[i]? → (affine_transform k2 trans)[i]? = (affine_transform l2 trans)[i]?)) := by
  refine ⟨⟨?_, ?_⟩, ⟨?_, ?_⟩, ⟨?_, ?_⟩, ⟨?_, ?_⟩⟩ <;> intro h <;>
    simp [world_to_cam, world_to_cam_pt, cam_to_img, cam_to_img_pt,
      aria_original_to_extracted, aria_original_to_extracted_pt,
      affine_transform, affine_transform_pt, List.getElem?_map, h]

/-- Witness for C3 at concrete singleton batches. -/
theorem absence_propagation_witness :
    (world_to_cam [none] idExtri)[0]? = some none ∧
    (cam_to_img [none] idIntri)[0]? = some none ∧
    (aria_original_to_extracted [none] 1408)[0]? = some none ∧
    (affine_transform [none] idIntri)[0]? = some none := by
  have h := absence_propagation idExtri idIntri idIntri 1408 [none] [none] [none] [none] 0
  exact ⟨h.1.1 rfl, h.2.1.1 rfl, h.2.2.1.1 rfl, h.2.2.2.1 rfl⟩

/-- C10: with annotation file, camera-pose file and image directory all
present, a take is processed iff `0 < len(anno) ≤ len(cam_pose)`; an empty
annotation dict or one larger than the camera-pose dict drops the take
silently (no warning branch is taken). -/
theorem silent_take_gate (annoExists camPoseExists imgDirExists : Bool) (nAnno nCamPose : ℕ)
    (hex : annoExists = true ∧ camPoseExists = true ∧ imgDirExists = true) :
    (load_raw_data_take_gate annoExists camPoseExists imgDirExists nAnno nCamPose =
        TakeOutcome.processed ↔ 0 < nAnno ∧ nAnno ≤ nCamPose) ∧
    ((nAnno = 0 ∨ nCamPose < nAnno) →
      load_raw_data_take_gate annoExists camPoseExists imgDirExists nAnno nCamPose =
        TakeOutcome.dropped_silently) := by
  obtain ⟨h1, h2, h3⟩ := hex
  subst h1; subst h2; subst h3
  constructor
  · by_cases hc : 0 < nAnno ∧ nAnno ≤ nCamPose <;> simp [load_raw_data_take_gate, hc]
  · intro hn
    have hc : ¬(0 < nAnno ∧ nAnno ≤ nCamPose) := by omega
    simp [load_raw_data_take_gate, hc]

/-- Witness for C10: existing files, 5 annotated frames, 3 camera poses. -/
theorem silent_take_gate_witness :
    load_raw_data_take_gate true true true 5 3 = TakeOutcome.dropped_silently :=
  (silent_take_gate true true true 5 3 ⟨rfl, rfl, rfl⟩).2 (Or.inr (by norm_num))

/-- C7: on a box whose width/height ratio already equals the target aspect
ratio `dimW / dimH`, `xyxy2cs` returns the box midpoint as center and scales
both dimensions by exactly 1.25 over `pixel_std`, changing neither the
center nor the aspect ratio. -/
theorem aspect_lock_idempotence (x1 y1 x2 y2 dimH dimW pixel_std : ℚ)
    (hx1 : 0 ≤ x1) (hx : x1 ≤ x2) (hy1 : 0 ≤ y1) (hy : y1 ≤ y2)
    (har : x2 - x1 = dimW / dimH * (y2 - y1)) :
    xyxy2cs x1 y1 x2 y2 dimH dimW pixel_std =
      (((x1 + x2) / 2, (y1 + y2) / 2),
       ((x2 - x1) / pixel_std * (5 / 4), (y2 - y1) / pixel_std * (5 / 4))) := by
  have hcx : (x1 + x2) / 2 ≠ -1 := by
    intro hcontra
    have h0 : (0 : ℚ) ≤ (x1 + x2) / 2 := by
      have : (0 : ℚ) ≤ x1 + x2 := by linarith
      linarith
    rw [hcontra] at h0
    norm_num at h0
  have h1 : ¬(dimW / dimH * (y2 - y1) < x2 - x1) := by
    rw [har]; exact lt_irrefl _
  have h2 : ¬(x2 - x1 < dimW / dimH * (y2 - y1)) := by
    rw [har]; exact lt_irrefl _
  simp only [xyxy2cs, if_neg h1, if_neg h2, if_pos hcx]

/-- Witness for C7 on the square box `(0,0,10,10)` with the 512×512 target. -/
theorem aspect_lock_idempotence_witness :
    xyxy2cs 0 0 10 10 512 512 200 =
      (((0 + 10) / 2, (0 + 10) / 2),
       ((10 - 0) / 200 * (5 / 4), (10 - 0) / 200 * (5 / 4))) :=
  aspect_lock_idempotence 0 0 10 10 512 512 200 (by norm_num) (by norm_num) (by norm_num)
    (by norm_num) (by norm_num)

/-- C2: the validator computes, per joint, the flag
`NOT(missing OR out-of-bounds OR occluded)` — the bounds check on the
missing-zeroed coordinate and the occlusion lookup on the coordinate zeroed
by both earlier checks — the cleaned row is absent exactly when the flag is
false, and a valid joint keeps its original coordinate. -/
theorem validator_semantics (dimH dimW : ℚ) (mask : ℤ → ℤ → ℚ) (kpts : List Pt2) (i : ℕ)
    (p : Pt2) (hp : kpts[i]? = some p) :
    (one_hand_kpts_valid_check dimH dimW mask kpts).2[i]? =
      some (!(miss_anno_flag p || out_bound_flag dimH dimW (zero_missing p) ||
        invis_flag dimH dimW mask p)) ∧
    ((one_hand_kpts_valid_check dimH dimW mask kpts).1[i]? = some none ↔
      (one_hand_kpts_valid_check dimH dimW mask kpts).2[i]? = some false) ∧
    ((one_hand_kpts_valid_check dimH dimW mask kpts).2[i]? = some true →
      (one_hand_kpts_valid_check dimH dimW mask kpts).1[i]? = some p) ∧
    invis_flag dimH dimW mask p =
      decide (mask (trunc (zeroed_kpt dimH dimW p).2) (trunc (zeroed_kpt dimH dimW p).1) = 0) := by
  have h1 : (one_hand_kpts_valid_check dimH dimW mask kpts).1[i]? =
      some (clean_kpt dimH dimW mask p) := by
    simp [one_hand_kpts_valid_check, List.getElem?_map, hp]
  have h2 : (one_hand_kpts_valid_check dimH dimW mask kpts).2[i]? =
      some (valid_flag_kpt dimH dimW mask p) := by
    simp [one_hand_kpts_valid_check, List.getElem?_map, hp]
  refine ⟨by rw [h2]; rfl, ?_, ?_, rfl⟩
  · rw [h1, h2]
    by_cases hv : valid_flag_kpt dimH dimW mask p = true
    · simp [clean_kpt, hv]
    · simp only [Bool.not_eq_true] at hv
      simp [clean_kpt, hv]
  · intro ht
    rw [h2] at ht
    have hv : valid_flag_kpt dimH dimW mask p = true := by simpa using ht
    have hparts := hv
    simp only [valid_flag_kpt, Bool.not_or, Bool.and_eq_true, Bool.not_eq_true'] at hparts
    obtain ⟨⟨hm, ho⟩, _⟩ := hparts
    cases p with
    | none => simp [miss_anno_flag] at hm
    | some q =>
        rw [h1]
        simp only [zero_missing, Option.getD_some] at ho
        simp [clean_kpt, hv, zeroed_kpt, zero_missing, ho]

/-- Witness for C2 at the in-bounds visible joint `(3,4)`. -/
theorem validator_semantics_witness :
    (one_hand_kpts_valid_check 512 512 constMask1 [some (3, 4)]).2[0]? =
      some (!(miss_anno_flag (some (3, 4)) ||
        out_bound_flag 512 512 (zero_missing (some (3, 4))) ||
        invis_flag 512 512 constMask1 (some (3, 4)))) :=
  (validator_semantics 512 512 constMask1 [some (3, 4)] 0 (some (3, 4)) rfl).1

/-- C5 counterexample: a joint with missing annotation (and occluded mask at
the zeroed lookup) comes out of the validator with coordinate `None`
(absent), not `(0, 0)`: the claim that the cleaned output carries the
*zeroed* coordinate is false. -/
theorem missing_joint_not_zeroed :
    (one_hand_kpts_valid_check 512 512 constMask0 [none]).1 = [none] ∧
    (none : Pt2) ≠ some ((0 : ℚ), (0 : ℚ)) := by
  exact ⟨rfl, by simp⟩

/-- C5 amended: a joint missing its annotation is reported invalid with its
coordinate set to absent (`None`) in the cleaned output; the zeroed
coordinate is only used internally for the bounds and occlusion checks. -/
theorem missing_joint_cleaned_absent (dimH dimW : ℚ) (mask : ℤ → ℤ → ℚ) (kpts : List Pt2)
    (i : ℕ) (hp : kpts[i]? = some none) :
    (one_hand_kpts_valid_check dimH dimW mask kpts).1[i]? = some none ∧
    (one_hand_kpts_valid_check dimH dimW mask kpts).2[i]? = some false := by
  constructor <;>
    simp [one_hand_kpts_valid_check, List.getElem?_map, hp, clean_kpt, valid_flag_kpt,
      miss_anno_flag]

/-- Witness for the amended C5 at a singleton missing joint. -/
theorem missing_joint_cleaned_absent_witness :
    (one_hand_kpts_valid_check 512 512 constMask0 [none]).1[0]? = some none ∧
    (one_hand_kpts_valid_check 512 512 constMask0 [none]).2[0]? = some false :=
  missing_joint_cleaned_absent 512 512 constMask0 [none] 0 rfl

/-! ### Helper lemmas about `foldl min/max` and `clip` -/

lemma foldl_min_le_init (l : List ℚ) (a : ℚ) : l.foldl min a ≤ a := by
  induction l generalizing a with
  | nil => exact le_rfl
  | cons x xs ih => exact le_trans (ih (min a x)) (min_le_left a x)

lemma foldl_min_le_mem (l : List ℚ) (a x : ℚ) (hx : x ∈ l) : l.foldl min a ≤ x := by
  induction l generalizing a with
  | nil => simp at hx
  | cons y ys ih =>
      rcases List.mem_cons.mp hx with h | h
      · subst h; exact le_trans (foldl_min_le_init ys (min a x)) (min_le_right a x)
      · exact ih (min a y) h

lemma init_le_foldl_max (l : List ℚ) (a : ℚ) : a ≤ l.foldl max a := by
  induction l generalizing a with
  | nil => exact le_rfl
  | cons x xs ih => exact le_trans (le_max_left a x) (ih (max a x))

lemma mem_le_foldl_max (l : List ℚ) (a x : ℚ) (hx : x ∈ l) : x ≤ l.foldl max a := by
  induction l generalizing a with
  | nil => simp at hx
  | cons y ys ih =>
      rcases List.mem_cons.mp hx with h | h
      · subst h; exact le_trans (le_max_right a x) (init_le_foldl_max ys (max a x))
      · exact ih (max a y) h

lemma clip_lb (v hi : ℚ) (h : 0 ≤ hi) : 0 ≤ clip v 0 hi :=
  le_min (le_max_right _ _) h

lemma clip_ub (v lo hi : ℚ) : clip v lo hi ≤ hi :=
  min_le_right _ _

lemma clip_mono (lo hi : ℚ) {a b : ℚ} (h : a ≤ b) : clip a lo hi ≤ clip b lo hi :=
  min_le_min (max_le_max h le_rfl) le_rfl

/-- C6: on a nonempty list of points inside the image, the padded/clipped
box of `get_bbox_from_kpts` is well-formed (`0 ≤ x1 ≤ x2 < dimW`,
`0 ≤ y1 ≤ y2 < dimH`) and contains every input point's clipped
coordinates. -/
theorem bbox_containment (kpts : List (ℚ × ℚ)) (dimH dimW padding : ℚ)
    (hW : 1 ≤ dimW) (hH : 1 ≤ dimH) (hpad : 0 ≤ padding) (hne : kpts ≠ [])
    (hin : ∀ q ∈ kpts, 0 ≤ q.1 ∧ q.1 < dimW ∧ 0 ≤ q.2 ∧ q.2 < dimH) :
    (0 ≤ (get_bbox_from_kpts kpts dimH dimW padding).1 ∧
     (get_bbox_from_kpts kpts dimH dimW padding).1 ≤
       (get_bbox_from_kpts kpts dimH dimW padding).2.2.1 ∧
     (get_bbox_from_kpts kpts dimH dimW padding).2.2.1 < dimW) ∧
    (0 ≤ (get_bbox_from_kpts kpts dimH dimW padding).2.1 ∧
     (get_bbox_from_kpts kpts dimH dimW padding).2.1 ≤
       (get_bbox_from_kpts kpts dimH dimW padding).2.2.2 ∧
     (get_bbox_from_kpts kpts dimH dimW padding).2.2.2 < dimH) ∧
    (∀ q ∈ kpts,
      (get_bbox_from_kpts kpts dimH dimW padding).1 ≤ clip q.1 0 (dimW - 1) ∧
      clip q.1 0 (dimW - 1) ≤ (get_bbox_from_kpts kpts dimH dimW padding).2.2.1 ∧
      (get_bbox_from_kpts kpts dimH dimW padding).2.1 ≤ clip q.2 0 (dimH - 1) ∧
      clip q.2 0 (dimH - 1) ≤ (get_bbox_from_kpts kpts dimH dimW padding).2.2.2) := by
  cases kpts with
  | nil => exact absurd rfl hne
  | cons p rest =>
    have hminx : ∀ q ∈ p :: rest, (rest.map Prod.fst).foldl min p.1 ≤ q.1 := by
      intro q hq
      rcases List.mem_cons.mp hq with h | h
      · subst h; exact foldl_min_le_init _ _
      · exact foldl_min_le_mem _ _ _ (List.mem_map_of_mem Prod.fst h)
    have hmaxx : ∀ q ∈ p :: rest, q.1 ≤ (rest.map Prod.fst).foldl max p.1 := by
      intro q hq
      rcases List.mem_cons.mp hq with h | h
      · subst h; exact init_le_foldl_max _ _
      · exact mem_le_foldl_max _ _ _ (List.mem_map_of_mem Prod.fst h)
    have hminy : ∀ q ∈ p :: rest, (rest.map Prod.snd).foldl min p.2 ≤ q.2 := by
      intro q hq
      rcases List.mem_cons.mp hq with h | h
      · subst h; exact foldl_min_le_init _ _
      · exact foldl_min_le_mem _ _ _ (List.mem_map_of_mem Prod.snd h)
    have hmaxy : ∀ q ∈ p :: rest, q.2 ≤ (rest.map Prod.snd).foldl max p.2 := by
      intro q hq
      rcases List.mem_cons.mp hq with h | h
      · subst h; exact init_le_foldl_max _ _
      · exact mem_le_foldl_max _ _ _ (List.mem_map_of_mem Prod.snd h)
    have hpm := List.mem_cons_self p rest
    have hW1 : (0 : ℚ) ≤ dimW - 1 := by linarith
    have hH1 : (0 : ℚ) ≤ dimH - 1 := by linarith
    simp only [get_bbox_from_kpts]
    refine ⟨⟨clip_lb _ _ hW1, clip_mono _ _ ?_, lt_of_le_of_lt (clip_ub _ _ _) (by linarith)⟩,
      ⟨clip_lb _ _ hH1, clip_mono _ _ ?_, lt_of_le_of_lt (clip_ub _ _ _) (by linarith)⟩, ?_⟩
    · have h1 := hminx p hpm
      have h2 := hmaxx p hpm
      linarith
    · have h1 := hminy p hpm
      have h2 := hmaxy p hpm
      linarith
    · intro q hq
      obtain ⟨hq1, _, hq2, _⟩ := hin q hq
      have h1 := hminx q hq
      have h2 := hmaxx q hq
      have h3 := hminy q hq
      have h4 := hmaxy q hq
      have hcx : clip q.1 0 (dimW - 1) ≤ q.1 := by
        rw [clip, max_eq_left hq1]; exact min_le_left _ _
      have hcy : clip q.2 0 (dimH - 1) ≤ q.2 := by
        rw [clip, max_eq_left hq2]; exact min_le_left _ _
      exact ⟨clip_mono _ _ (by linarith),
        le_min (le_trans hcx (le_trans (by linarith) (le_max_left _ _))) (min_le_right _ _),
        clip_mono _ _ (by linarith),
        le_min (le_trans hcy (le_trans (by linarith) (le_max_left _ _))) (min_le_right _ _)⟩

/-- Witness for C6 on the singleton point `(1,1)` in a 512×512 image. -/
theorem bbox_containment_witness :
    0 ≤ (get_bbox_from_kpts [((1 : ℚ), 1)] 512 512 20).1 ∧
    (get_bbox_from_kpts [((1 : ℚ), 1)] 512 512 20).2.2.1 < 512 := by
  have h := bbox_containment [((1 : ℚ), 1)] 512 512 20 (by norm_num) (by norm_num)
    (by norm_num) (by simp) (by norm_num)
  exact ⟨h.1.1, h.1.2.2⟩

/-! ### Heatmap lemmas -/

/-- Unfolding of the visible-joint branch of `generate_heatmap_joint`. -/
lemma generate_heatmap_joint_true (imgW imgH : ℚ) (hmW hmH sigma : ℤ) (p : ℚ × ℚ) :
    generate_heatmap_joint imgW imgH hmW hmH sigma p true =
      if gaussian_window_miss hmW hmH (heat_mu imgW hmW p.1 - sigma * 3)
          (heat_mu imgH hmH p.2 - sigma * 3) (heat_mu imgW hmW p.1 + sigma * 3 + 1)
          (heat_mu imgH hmH p.2 + sigma * 3 + 1)
      then (fun _ _ => HCell.zero, 0)
      else (gaussian_splat hmW hmH (sigma * 3) (heat_mu imgW hmW p.1 - sigma * 3)
          (heat_mu imgH hmH p.2 - sigma * 3) (heat_mu imgW hmW p.1 + sigma * 3 + 1)
          (heat_mu imgH hmH p.2 + sigma * 3 + 1), 1) := rfl

/-- Emptiness: `window_disjoint` holds exactly when the intersection of the
truncation window with the heatmap grid is empty. -/
lemma window_disjoint_spec (hmW hmH ulX ulY brX brY : ℤ) :
    window_disjoint hmW hmH ulX ulY brX brY = true ↔
      ∀ x y : ℤ, ¬(ulX ≤ x ∧ x < brX ∧ 0 ≤ x ∧ x < hmW ∧
        ulY ≤ y ∧ y < brY ∧ 0 ≤ y ∧ y < hmH) := by
  unfold window_disjoint
  constructor
  · intro h x y hc
    simp only [Bool.or_eq_true, decide_eq_true_eq] at h
    rcases h with h | h <;> omega
  · intro h
    simp only [Bool.or_eq_true, decide_eq_true_eq]
    by_contra hc
    rw [not_or] at hc
    obtain ⟨h1, h2⟩ := hc
    exact h (max ulX 0) (max ulY 0) (by omega)

/-- C8 (failing input): for the valid joint `(-30, 0)` with the source's
parameters (image 224×224, heatmap 56×56, sigma 2), the truncation window
`[-13, 0) × [-6, 7)` is disjoint from the heatmap grid, yet the in-bounds
test does not fire (`br[0] = 0` is not `< 0`): the joint's weight stays `1`
while its heatmap is left all-zero, contradicting the claimed (and
code-commented) behaviour of forcing the weight to `0` whenever the window
does not intersect the grid. -/
theorem heatmap_boundary_window_bug :
    generate_heatmap 224 224 56 56 2 [((-30 : ℚ), 0)] [true] =
      [generate_heatmap_joint 224 224 56 56 2 ((-30 : ℚ), 0) true] ∧
    window_disjoint 56 56 (heat_mu 224 56 (-30) - 2 * 3) (heat_mu 224 56 0 - 2 * 3)
      (heat_mu 224 56 (-30) + 2 * 3 + 1) (heat_mu 224 56 0 + 2 * 3 + 1) = true ∧
    (generate_heatmap_joint 224 224 56 56 2 ((-30 : ℚ), 0) true).2 = 1 ∧
    ∀ y x : ℤ, (generate_heatmap_joint 224 224 56 56 2 ((-30 : ℚ), 0) true).1 y x =
      HCell.zero := by
  have hmux : heat_mu 224 56 (-30 : ℚ) = -7 := by norm_num [heat_mu, trunc]
  have hmuy : heat_mu 224 56 (0 : ℚ) = 0 := by norm_num [heat_mu, trunc]
  have key : generate_heatmap_joint 224 224 56 56 2 ((-30 : ℚ), 0) true =
      (gaussian_splat 56 56 6 (-13) (-6) 0 7, 1) := by
    rw [generate_heatmap_joint_true]
    simp only [hmux, hmuy]
    norm_num only
    rw [if_neg (by decide : ¬gaussian_window_miss 56 56 (-13) (-6) 0 7 = true)]
  refine ⟨rfl, ?_, ?_, ?_⟩
  · rw [hmux, hmuy]; decide
  · rw [key]
  · intro y x
    rw [key]
    simp only [gaussian_splat]
    split
    next h => exact absurd h (by omega)
    next => rfl

/-! ### Concrete evaluation of the projection pipeline -/

lemma world_to_cam_pt_none (extri : Fin 3 → Fin 4 → ℚ) :
    world_to_cam_pt extri none = none := rfl

lemma cam_to_img_pt_none (intri : Fin 3 → Fin 3 → ℚ) :
    cam_to_img_pt intri none = none := rfl

lemma aria_pt_none (srcH : ℚ) : aria_original_to_extracted_pt srcH none = none := rfl

lemma valid_flag_kpt_none (dimH dimW : ℚ) (mask : ℤ → ℤ → ℚ) :
    valid_flag_kpt dimH dimW mask none = false := rfl

lemma w121 : world_to_cam_pt idExtri (some ((1 : ℚ), 2, 1)) = some (1, 2, 1) := by
  norm_num [world_to_cam_pt, idExtri]
  all_goals decide

lemma c121 : cam_to_img_pt idIntri (some ((1 : ℚ), 2, 1)) = some (1, 2) := by
  norm_num [cam_to_img_pt, idIntri]

lemma a121 : aria_original_to_extracted_pt 512 (some ((1 : ℚ), 2)) = some (509, 1) := by
  norm_num [aria_original_to_extracted_pt]

lemma w231 : world_to_cam_pt idExtri (some ((2 : ℚ), 3, 1)) = some (2, 3, 1) := by
  norm_num [world_to_cam_pt, idExtri]
  all_goals decide

lemma c231 : cam_to_img_pt idIntri (some ((2 : ℚ), 3, 1)) = some (2, 3) := by
  norm_num [cam_to_img_pt, idIntri]

lemma a231 : aria_original_to_extracted_pt 512 (some ((2 : ℚ), 3)) = some (508, 2) := by
  norm_num [aria_original_to_extracted_pt]

lemma flag509_vis : valid_flag_kpt 512 512 constMask1 (some ((509 : ℚ), 1)) = true := by
  norm_num [valid_flag_kpt, miss_anno_flag, zero_missing, out_bound_flag, invis_flag,
    zeroed_kpt, constMask1, trunc, decide_eq_true_eq]

lemma flag509_occl : valid_flag_kpt 512 512 maskOccl509 (some ((509 : ℚ), 1)) = false := by
  norm_num [valid_flag_kpt, miss_anno_flag, zero_missing, out_bound_flag, invis_flag,
    zeroed_kpt, maskOccl509, trunc, decide_eq_true_eq]

lemma flag508_vis : valid_flag_kpt 512 512 maskOccl509 (some ((508 : ℚ), 2)) = true := by
  norm_num [valid_flag_kpt, miss_anno_flag, zero_missing, out_bound_flag, invis_flag,
    zeroed_kpt, maskOccl509, trunc, decide_eq_true_eq]

/-- Flags the curator computes for `nineValidKpts`: the wrist and joints 1–9
valid, joints 10–20 missing. -/
lemma nineValid_flags :
    pipeline_flags 512 512 constMask1 idExtri idIntri nineValidKpts =
      true :: (List.replicate 9 true ++ List.replicate 11 false) := by
  simp [pipeline_flags, nineValidKpts, world_to_cam, cam_to_img, aria_original_to_extracted,
    one_hand_kpts_valid_check, w121, c121, a121, flag509_vis,
    world_to_cam_pt_none, cam_to_img_pt_none, aria_pt_none, valid_flag_kpt_none]

/-- Flags the curator computes for `occlWristKpts`: wrist occluded (flag
false), joints 1–10 valid, joints 11–20 missing. -/
lemma occlWrist_flags :
    pipeline_flags 512 512 maskOccl509 idExtri idIntri occlWristKpts =
      false :: (List.replicate 10 true ++ List.replicate 10 false) := by
  simp [pipeline_flags, occlWristKpts, world_to_cam, cam_to_img, aria_original_to_extracted,
    one_hand_kpts_valid_check, w121, c121, a121, flag509_occl, w231, c231, a231, flag508_vis,
    world_to_cam_pt_none, cam_to_img_pt_none, aria_pt_none, valid_flag_kpt_none]

/-! ### Curator acceptance theorems -/

/-- Definitional unfolding of `load_take_raw_data_one_hand` on a hand whose
wrist row is present. -/
lemma load_one_hand_cons (dimH dimW padding pixel_std : ℚ) (threshold : ℕ)
    (mask : ℤ → ℤ → ℚ) (extri : Fin 3 → Fin 4 → ℚ) (intri : Fin 3 → Fin 3 → ℚ)
    (wv : ℚ × ℚ × ℚ) (rest : List Pt3) :
    load_take_raw_data_one_hand dimH dimW padding pixel_std threshold mask extri intri
        (some wv :: rest) =
      (let cam := world_to_cam (some wv :: rest) extri
       let ext := aria_original_to_extracted (cam_to_img cam intri) dimH
       let cleaned := (one_hand_kpts_valid_check dimH dimW mask ext).1
       let flags := (one_hand_kpts_valid_check dimH dimW mask ext).2
       let cam3 := List.zipWith (fun p b => if b then p else none) cam flags
       if threshold ≤ flags.count true then
         let cam3w := cam3.set 0 (world_to_cam_pt extri (some wv))
         let validPts := (cleaned.zip flags).filterMap (fun pb => if pb.2 then pb.1 else none)
         let bb := get_bbox_from_kpts validPts dimH dimW padding
         let cs := xyxy2cs bb.1 bb.2.1 bb.2.2.1 bb.2.2.2 dimH dimW pixel_std
         some ⟨cleaned, cam3w, flags, bb, cs.1, cs.2⟩
       else none) := rfl

/-- C1 counterexample: for `nineValidKpts` — wrist present *and valid*, only
9 of joints 1–20 valid — the instance is accepted (the source counts the
wrist's own flag toward `sum(valid_flag) >= 10`), contradicting the claim
that joint 0 is exempt from the accept/reject count and that 9 valid joints
among 1–20 mean the instance is discarded. -/
theorem acceptance_nine_valid_accepted :
    (load_take_raw_data_one_hand 512 512 20 200 10 constMask1 idExtri idIntri
        nineValidKpts).isSome = true ∧
    (pipeline_flags 512 512 constMask1 idExtri idIntri nineValidKpts)[0]? = some true ∧
    ((pipeline_flags 512 512 constMask1 idExtri idIntri nineValidKpts).drop 1).count true =
      9 := by
  have hf := nineValid_flags
  refine ⟨?_, ?_, ?_⟩
  · simp only [pipeline_flags] at hf
    simp only [nineValidKpts] at hf ⊢
    simp only [load_one_hand_cons]
    rw [hf]
    have hc : 10 ≤ (true :: (List.replicate 9 true ++ List.replicate 11 false)).count true := by
      decide
    rw [if_pos hc]
    rfl
  · rw [hf]; rfl
  · rw [hf]; decide

/-- C1 amended: with the wrist present in world space, the instance is
accepted iff at least `threshold` of all 21 validity flags — the wrist's own
flag included — are true; the wrist is not exempt from the accept/reject
count. -/
theorem acceptance_threshold_counts_all_joints (dimH dimW padding pixel_std : ℚ)
    (threshold : ℕ) (mask : ℤ → ℤ → ℚ) (extri : Fin 3 → Fin 4 → ℚ)
    (intri : Fin 3 → Fin 3 → ℚ) (wv : ℚ × ℚ × ℚ) (rest : List Pt3) :
    (load_take_raw_data_one_hand dimH dimW padding pixel_std threshold mask extri intri
        (some wv :: rest)).isSome = true ↔
      threshold ≤ (pipeline_flags dimH dimW mask extri intri (some wv :: rest)).count true := by
  by_cases hc :
      threshold ≤ (pipeline_flags dimH dimW mask extri intri (some wv :: rest)).count true <;>
    simp only [pipeline_flags] at hc <;>
    simp [load_one_hand_cons, pipeline_flags, hc]

/-- Witness for the amended C1 at the concrete accepted hand. -/
theorem acceptance_threshold_counts_all_joints_witness :
    (load_take_raw_data_one_hand 512 512 20 200 10 constMask1 idExtri idIntri
        (some (1, 2, 1) :: (List.replicate 9 (some (1, 2, 1)) ++
          List.replicate 11 none))).isSome = true := by
  rw [acceptance_threshold_counts_all_joints]
  have hf := nineValid_flags
  simp only [nineValidKpts] at hf
  rw [hf]
  decide

/-- C4: if the wrist is present in world space but its image-space validity
flag is false (e.g. because of the occlusion-mask lookup), the instance is
still accepted whenever the overall valid-count threshold is met, and the
emitted record keeps the raw camera-space wrist in `joints_3d[0]` while
`valid_flag[0]` stays false. -/
theorem wrist_exemption (dimH dimW padding pixel_std : ℚ) (threshold : ℕ)
    (mask : ℤ → ℤ → ℚ) (extri : Fin 3 → Fin 4 → ℚ) (intri : Fin 3 → Fin 3 → ℚ)
    (wv : ℚ × ℚ × ℚ) (rest : List Pt3)
    (hw : (pipeline_flags dimH dimW mask extri intri (some wv :: rest))[0]? = some false)
    (hcnt : threshold ≤
      (pipeline_flags dimH dimW mask extri intri (some wv :: rest)).count true) :
    (load_take_raw_data_one_hand dimH dimW padding pixel_std threshold mask extri intri
        (some wv :: rest)).isSome = true ∧
    (load_take_raw_data_one_hand dimH dimW padding pixel_std threshold mask extri intri
        (some wv :: rest)).bind (fun r => r.joints_3d[0]?) =
      some (world_to_cam_pt extri (some wv)) ∧
    (load_take_raw_data_one_hand dimH dimW padding pixel_std threshold mask extri intri
        (some wv :: rest)).bind (fun r => r.valid_flag[0]?) = some false := by
  simp only [pipeline_flags] at hw hcnt
  simp only [load_one_hand_cons]
  rw [if_pos hcnt]
  refine ⟨rfl, ?_, ?_⟩
  · simp [world_to_cam, cam_to_img, aria_original_to_extracted, one_hand_kpts_valid_check]
  · simpa using hw

/-- Witness for C4 at the concrete occluded-wrist hand. -/
theorem wrist_exemption_witness :
    (load_take_raw_data_one_hand 512 512 20 200 10 maskOccl509 idExtri idIntri
        (some (1, 2, 1) :: (List.replicate 10 (some (2, 3, 1)) ++
          List.replicate 10 none))).isSome = true ∧
    (load_take_raw_data_one_hand 512 512 20 200 10 maskOccl509 idExtri idIntri
        (some (1, 2, 1) :: (List.replicate 10 (some (2, 3, 1)) ++
          List.replicate 10 none))).bind (fun r => r.joints_3d[0]?) =
      some (world_to_cam_pt idExtri (some (1, 2, 1))) ∧
    (load_take_raw_data_one_hand 512 512 20 200 10 maskOccl509 idExtri idIntri
        (some (1, 2, 1) :: (List.replicate 10 (some (2, 3, 1)) ++
          List.replicate 10 none))).bind (fun r => r.valid_flag[0]?) = some false := by
  have hf := occlWrist_flags
  simp only [occlWristKpts] at hf
  apply wrist_exemption
  · rw [hf]; rfl
  · rw [hf]; decide
